import Mathlib

/-!
Verification of the scrape → AI-process → generate pipeline of the
paris-entrepreneurship-kb repository.

The Python sources are shallowly embedded:

* an article dict becomes the `Article` structure whose fields are
  `Option String` (`none` = key absent from the dict);
* Python's `d.get(k, '')` becomes `Option.getD`, and the truthiness idiom
  `d.get(k1) or d.get(k2, '')` becomes `pyOr` (the empty string is falsy);
* an LLM / HTTP call that may raise after its internal retries becomes an
  explicit outcome value of type `Except ε α` supplied as a parameter, and a
  Python function body that may raise becomes a Lean function returning
  `Except ε α` — a `try/except` in the source becomes a `match` on the
  outcome;
* retry loops additionally record a trace of `FetchEvent`s (one `attempt i`
  per loop iteration, one `sleep s` per `time.sleep(s)`) so that the retry
  count and back-off schedule are observable;
* string slicing `s[:n]` works on code points, hence on `String.data`
  (`List Char`).
-/

namespace ParisKB

/-- Python whitespace test (`c.strip() == ''`, i.e. CPython's
`str.isspace` set): U+0009–U+000D, U+001C–U+001F, space, U+0085 (NEL),
U+00A0 (NBSP), U+1680 (Ogham space mark), U+2000–U+200A (typographic
spaces), U+2028/U+2029 (line/paragraph separator), U+202F, U+205F and
U+3000 (ideographic space). -/
def pyIsSpace (c : Char) : Bool :=
  (0x09 ≤ c.toNat && c.toNat ≤ 0x0d) ||
  (0x1c ≤ c.toNat && c.toNat ≤ 0x1f) ||
  c.toNat = 0x20 || c.toNat = 0x85 || c.toNat = 0xa0 || c.toNat = 0x1680 ||
  (0x2000 ≤ c.toNat && c.toNat ≤ 0x200a) ||
  c.toNat = 0x2028 || c.toNat = 0x2029 || c.toNat = 0x202f ||
  c.toNat = 0x205f || c.toNat = 0x3000

/-- Python's `x or y` on an optional string `x` (absent and the empty
string are both falsy). -/
def pyOr (x : Option String) (y : String) : String :=
  match x with
  | some s => if s.isEmpty then y else s
  | none => y

/-- Python slice `s[:n]` (by code points). -/
def pySlice (s : String) (n : Nat) : String :=
  ⟨s.data.take n⟩

/-- An article dict accumulated across pipeline stages.  `none` models a
key that is absent from the dict. -/
structure Article where
  url : Option String := none
  title : Option String := none
  content : Option String := none
  author : Option String := none
  date : Option String := none
  category : Option String := none
  key_points : Option String := none
  original_content : Option String := none
  rewritten_content : Option String := none
  title_zh : Option String := none
  content_zh : Option String := none
deriving DecidableEq, Repr

/-- One observable event of a retry loop: a call attempt (by 0-based
index) or a `time.sleep` of the given number of seconds. -/
inductive FetchEvent where
  | attempt (i : Nat)
  | sleep (secs : Nat)
deriving DecidableEq, Repr

/-- The sleep durations occurring in a trace, in order. -/
def sleepsOf (evs : List FetchEvent) : List Nat :=
  evs.filterMap fun e =>
    match e with
    | FetchEvent.sleep s => some s
    | FetchEvent.attempt _ => none

/-- Whether an event is a call attempt. -/
def isAttempt (e : FetchEvent) : Bool :=
  match e with
  | FetchEvent.attempt _ => true
  | FetchEvent.sleep _ => false

/-! ## `scraper.py` — `WebScraper.fetch_page`

```python
for attempt in range(retry):
    try:
        ... return BeautifulSoup(...)
    except Exception as e:
        if attempt < retry - 1:
            time.sleep(2 ** attempt)
        else:
            return None
```

`outcome i` is what attempt `i`'s body does: `.ok doc` for a successful
fetch-and-parse, `.error e` when it raises.  Falling out of the loop
(only possible when `retry = 0`) returns `None`. -/

/-- The loop of `fetch_page` at iteration `i`, with `fuel` iterations of
`range(retry)` remaining (`fuel = retry - i` at every call); running out
of fuel is falling off the end of the `for` loop, which returns `None`.
The trace records the attempts made and the sleeps performed. -/
def fetch_page_go {σ : Type} (outcome : Nat → Except Unit σ) (retry : Nat) :
    Nat → Nat → List FetchEvent × Option σ
  | _, 0 => ([], none)
  | i, fuel + 1 =>
    match outcome i with
    | Except.ok doc => ([FetchEvent.attempt i], some doc)
    | Except.error _ =>
      if i < retry - 1 then
        let rest := fetch_page_go outcome retry (i + 1) fuel
        (FetchEvent.attempt i :: FetchEvent.sleep (2 ^ i) :: rest.1, rest.2)
      else
        ([FetchEvent.attempt i], none)

/-- `WebScraper.fetch_page` (src/scraper.py lines 34–57). -/
def fetch_page {σ : Type} (outcome : Nat → Except Unit σ) (retry : Nat) :
    List FetchEvent × Option σ :=
  fetch_page_go outcome retry 0 retry

/-! ## `ai_processor.py` — `AIProcessor._call_api`

```python
for attempt in range(max_retries):
    try:
        ... return response...strip()
    except Exception as e:
        if attempt < max_retries - 1:
            time.sleep(2 ** attempt)
        else:
            raise
```

Same loop shape as `fetch_page`, but exhaustion re-raises the last error
instead of returning `None`.  The result type `Except ε (Option String)`
distinguishes returning text (`.ok (some s)`), falling off the end of the
function (`.ok none`, only when `max_retries = 0`), and raising
(`.error e`). -/

/-- The loop of `_call_api` at iteration `i`, with `fuel` iterations of
`range(max_retries)` remaining (`fuel = max_retries - i` at every call);
running out of fuel is falling off the end of the function, which
returns `None` (`.ok none`). -/
def call_api_go {ε : Type} (outcome : Nat → Except ε String) (max_retries : Nat) :
    Nat → Nat → List FetchEvent × Except ε (Option String)
  | _, 0 => ([], Except.ok none)
  | i, fuel + 1 =>
    match outcome i with
    | Except.ok s => ([FetchEvent.attempt i], Except.ok (some s))
    | Except.error e =>
      if i < max_retries - 1 then
        let rest := call_api_go outcome max_retries (i + 1) fuel
        (FetchEvent.attempt i :: FetchEvent.sleep (2 ^ i) :: rest.1, rest.2)
      else
        ([FetchEvent.attempt i], Except.error e)

/-- `AIProcessor._call_api` (src/ai_processor.py lines 69–112). -/
def call_api {ε : Type} (outcome : Nat → Except ε String) (max_retries : Nat) :
    List FetchEvent × Except ε (Option String) :=
  call_api_go outcome max_retries 0 max_retries

/-! ## `ai_processor.py` — `AIProcessor._is_chinese` -/

/-- Membership in the CJK Unified Ideographs block, the Python test
`'一' <= char <= '鿿'`. -/
def isCJK (c : Char) : Bool :=
  0x4e00 ≤ c.toNat && c.toNat ≤ 0x9fff

/-- `AIProcessor._is_chinese` (src/ai_processor.py lines 251–267).

```python
if not text: return False
chinese_chars = sum(1 for char in text[:1000] if '一' <= char <= '鿿')
total_chars = len([c for c in text[:1000] if c.strip()])
return total_chars > 0 and chinese_chars / total_chars > 0.3
```

The float comparison `chinese_chars / total_chars > 0.3` coincides with
the exact rational comparison `10 * chinese_chars > 3 * total_chars` for
all counts bounded by 1000, because the quotient is at least `1/10000`
away from `3/10` whenever the rationals differ, far above double
rounding error, and equals the double of the literal `0.3` when the
rationals coincide. -/
def is_chinese (text : String) : Bool :=
  if text.data.isEmpty then false
  else
    let chinese_chars := ((text.data.take 1000).filter isCJK).length
    let total_chars := ((text.data.take 1000).filter (fun c => !pyIsSpace c)).length
    decide (0 < total_chars) && decide (3 * total_chars < 10 * chinese_chars)

/-! ## `ai_processor.py` — the three-stage content pipeline

Each stage's LLM call is abstracted by its outcome (`.ok text` = the call
returned `text`, `.error e` = `_call_api` raised `e` after exhausting its
retries).  The stage functions return `Except Unit Article` so that "the
function raises" (`.error`) is distinguishable from "the function returns
an article" (`.ok`); the `try/except Exception` blocks of the source are
total handlers, embedded as `match` on the outcome. -/

/-- `AIProcessor.extract_and_rewrite` (src/ai_processor.py lines 114–192).
`ex` is the outcome of the stage-1 key-point extraction call, `rw` the
outcome of the stage-2 rewrite call. -/
def extract_and_rewrite (ex rw : Except Unit String) (article : Article) :
    Except Unit Article :=
  let original_content := article.content.getD ""
  if original_content.isEmpty then Except.ok article
  else
    let key_points :=
      match ex with
      | Except.ok s => s
      | Except.error _ => pySlice original_content 500
    match rw with
    | Except.ok rewritten_content =>
      Except.ok { article with
        original_content := some original_content
        key_points := some key_points
        rewritten_content := some rewritten_content }
    | Except.error _ =>
      Except.ok { article with rewritten_content := some original_content }

/-- `AIProcessor.translate_to_chinese` (src/ai_processor.py lines 194–249).
`tt` is the outcome of the title-translation call, `tc` the outcome of the
content-translation call. -/
def translate_to_chinese (tt tc : Except Unit String) (article : Article) :
    Except Unit Article :=
  let content := pyOr article.rewritten_content (article.content.getD "")
  if is_chinese content then
    Except.ok { article with
      title_zh := some (article.title.getD "")
      content_zh := some content }
  else
    let a1 :=
      match tt with
      | Except.ok title_zh => { article with title_zh := some title_zh }
      | Except.error _ => { article with title_zh := some (article.title.getD "") }
    let a2 :=
      match tc with
      | Except.ok content_zh => { a1 with content_zh := some content_zh }
      | Except.error _ => { a1 with content_zh := some content }
    Except.ok a2

/-- `AIProcessor.process_article` (src/ai_processor.py lines 269–293). -/
def process_article (ex rw tt tc : Except Unit String) (skip_translation : Bool)
    (article : Article) : Except Unit Article :=
  match extract_and_rewrite ex rw article with
  | Except.error e => Except.error e
  | Except.ok a1 =>
    if !skip_translation then
      translate_to_chinese tt tc a1
    else
      Except.ok { a1 with
        title_zh := some (a1.title.getD "")
        content_zh := some (pyOr a1.rewritten_content (a1.content.getD "")) }

/-! ## `article_scraper.py` — the per-article AI-processing loop

```python
processed_articles = []
for i, article in enumerate(articles, 1):
    try:
        processed = self.ai_processor.process_article(...)
        processed_articles.append(processed)
    except Exception as e:
        article['title_zh'] = article.get('title', '')
        article['content_zh'] = article.get('content', '')
        processed_articles.append(article)
return processed_articles
```

`proc` abstracts the whole `process_article` call, `.error` meaning it
raised an (arbitrary) unhandled exception. -/

/-- The fallback applied by `scrape_by_category` when `process_article`
raises: keep the raw article, copying raw title/content into the
translated fields. -/
def rawFallback (article : Article) : Article :=
  { article with
    title_zh := some (article.title.getD "")
    content_zh := some (article.content.getD "") }

/-- The AI-processing loop of `ArticleScraper.scrape_by_category`
(src/article_scraper.py lines 91–110). -/
def processArticlesLoop (proc : Article → Except Unit Article) :
    List Article → List Article
  | [] => []
  | article :: rest =>
    match proc article with
    | Except.ok processed => processed :: processArticlesLoop proc rest
    | Except.error _ => rawFallback article :: processArticlesLoop proc rest

/-! ## `content_generator.py` — `ContentGenerator._extract_tags` -/

/-- The hardcoded theme → keyword-list table (src/content_generator.py
lines 67–75), in dict insertion order. -/
def keywordTable : List (String × List String) :=
  [("融资", ["融资", "投资", "VC", "天使轮", "A轮"]),
   ("SaaS", ["SaaS", "Software as a Service"]),
   ("人工智能", ["AI", "人工智能", "机器学习", "ML"]),
   ("电商", ["电商", "e-commerce", "跨境"]),
   ("创始人", ["创始人", "CEO", "founder"]),
   ("团队管理", ["团队", "招聘", "管理"]),
   ("产品", ["产品", "PMF", "product-market fit"])]

/-- Python's substring test `needle in haystack` on strings. -/
def strIn (needle haystack : String) : Bool :=
  decide (needle.data <:+: haystack.data)

/-- The keyword loop of `_extract_tags`:

```python
for tag, keywords_list in keywords.items():
    if any(keyword in content for keyword in keywords_list):
        if tag not in tags:
            tags.append(tag)
```
-/
def addTags (content : String) : List (String × List String) → List String → List String
  | [], tags => tags
  | (tag, keywords_list) :: rest, tags =>
    if keywords_list.any (fun keyword => strIn keyword content) && !tags.contains tag then
      addTags content rest (tags ++ [tag])
    else
      addTags content rest tags

/-- `ContentGenerator._extract_tags` (src/content_generator.py lines 46–82). -/
def extract_tags (article : Article) : List String :=
  let tags :=
    match article.category with
    | some c => if c.isEmpty then [] else [c]
    | none => []
  let content := pyOr article.content_zh (article.content.getD "")
  (addTags content keywordTable tags).take 5

/-! ## `content_generator.py` — `ContentGenerator._generate_excerpt` -/

/-- The Markdown punctuation removed by the excerpt generator
(`re.sub(r'[#*`\[\]()]', '', content)`). -/
def bannedChar (c : Char) : Bool :=
  c = '#' || c = '*' || c = '`' || c = '[' || c = ']' || c = '(' || c = ')'

/-- Python's `text.split(sep)` for a single-character separator: no run
collapsing, `""` splits to `[""]`. -/
def splitOnChar (sep : Char) : List Char → List (List Char)
  | [] => [[]]
  | c :: rest =>
    if c = sep then [] :: splitOnChar sep rest
    else
      match splitOnChar sep rest with
      | [] => [[c]]
      | l :: ls => (c :: l) :: ls

/-- Python's `line.strip()`: drop whitespace from both ends. -/
def pyStrip (l : List Char) : List Char :=
  ((l.dropWhile pyIsSpace).reverse.dropWhile pyIsSpace).reverse

/-- `ContentGenerator._generate_excerpt` (src/content_generator.py lines
84–104).

```python
text = re.sub(r'[#*`\[\]()]', '', content)
lines = [line.strip() for line in text.split('\n') if line.strip()]
if lines:
    excerpt = lines[0]
    if len(excerpt) > max_length:
        excerpt = excerpt[:max_length] + '...'
    return excerpt
return ""
```
-/
def generate_excerpt (content : String) (max_length : Nat := 150) : String :=
  let text := content.data.filter (fun c => !bannedChar c)
  let lines := ((splitOnChar '\n' text).map pyStrip).filter (fun l => !l.isEmpty)
  match lines with
  | [] => ""
  | excerpt :: _ =>
    if max_length < excerpt.length then ⟨excerpt.take max_length ++ ['.', '.', '.']⟩
    else ⟨excerpt⟩

/-! ## `content_generator.py` — `ContentGenerator._get_next_id`

```python
max_id = 0
for filename in os.listdir(self.output_dir):
    if filename.endswith('.md'):
        try:
            ... match = re.search(r'^id:\s*(\d+)', content, re.MULTILINE)
            if match:
                article_id = int(match.group(1))
                max_id = max(max_id, article_id)
        except Exception:
            pass
return max_id + 1
```

The directory is abstracted as the list of per-`.md`-file scan results:
one `Option Nat` per file, `some i` when the front-matter scan found id
`i`, `none` when the file is unreadable or carries no id (non-`.md`
files are simply not in the list).  A missing output directory is the
empty list. -/

/-- `ContentGenerator._get_next_id` (src/content_generator.py lines
106–130). -/
def get_next_id (ids : List (Option Nat)) : Nat :=
  (ids.foldl (fun max_id oid =>
    match oid with
    | some article_id => max max_id article_id
    | none => max_id) 0) + 1

/-! ## Statement-side definitions -/

/-- The counter `chinese_chars` of `_is_chinese`, computed on a whole
string: CJK characters among the first 1000 characters. -/
def cjkCount1000 (s : String) : Nat :=
  ((s.data.take 1000).filter isCJK).length

/-- The counter `total_chars` of `_is_chinese`, computed on a whole
string: non-whitespace characters among the first 1000 characters. -/
def nonWsCount1000 (s : String) : Nat :=
  ((s.data.take 1000).filter (fun c => !pyIsSpace c)).length

/-- Modelled from the spec's words (claim C3 / spec §4.4 item 3): "the
first 1000 non-whitespace characters" of a string — the whitespace
characters are discarded first, and the first 1000 of the remaining
characters are taken.  To be compared with the code's `_is_chinese`,
which instead takes the first 1000 characters of the raw string. -/
def specFirstThousandNonWs (s : String) : List Char :=
  (s.data.filter (fun c => !pyIsSpace c)).take 1000

/-- The event block a failing retry loop emits for iteration `j`: the
attempt, followed by a `2 ^ j`-second sleep unless `j` is the final
iteration of a loop with `bound` iterations. -/
def failBlock (bound j : Nat) : List FetchEvent :=
  if j + 1 < bound then [FetchEvent.attempt j, FetchEvent.sleep (2 ^ j)]
  else [FetchEvent.attempt j]

/-! ## Helper lemmas -/

lemma foldl_max_ge_init (l : List (Option Nat)) (acc : Nat) :
    acc ≤ l.foldl (fun max_id oid =>
      match oid with
      | some article_id => max max_id article_id
      | none => max_id) acc := by
  induction l generalizing acc with
  | nil => exact Nat.le_refl acc
  | cons o rest ih =>
    simp only [List.foldl_cons]
    cases o with
    | none => exact ih acc
    | some i => exact Nat.le_trans (Nat.le_max_left acc i) (ih (max acc i))

lemma foldl_max_ge_mem (l : List (Option Nat)) (i acc : Nat) (h : some i ∈ l) :
    i ≤ l.foldl (fun max_id oid =>
      match oid with
      | some article_id => max max_id article_id
      | none => max_id) acc := by
  induction l generalizing acc with
  | nil => cases h
  | cons o rest ih =>
    simp only [List.foldl_cons]
    rcases List.mem_cons.mp h with heq | hmem
    · cases heq
      exact Nat.le_trans (Nat.le_max_right acc i) (foldl_max_ge_init rest (max acc i))
    · cases o with
      | none => exact ih acc hmem
      | some j => exact ih (max acc j) hmem

lemma foldl_max_le (m : Nat) :
    ∀ (l : List (Option Nat)) (acc : Nat),
      (∀ j, some j ∈ l → j ≤ m) → acc ≤ m →
      l.foldl (fun max_id oid =>
        match oid with
        | some article_id => max max_id article_id
        | none => max_id) acc ≤ m
  | [], _, _, hacc => hacc
  | o :: rest, acc, hall, hacc => by
    simp only [List.foldl_cons]
    cases o with
    | none =>
      exact foldl_max_le m rest acc
        (fun j hj => hall j (List.mem_cons_of_mem _ hj)) hacc
    | some i =>
      exact foldl_max_le m rest (max acc i)
        (fun j hj => hall j (List.mem_cons_of_mem _ hj))
        (Nat.max_le.mpr ⟨hacc, hall i (List.mem_cons_self _ _)⟩)

lemma foldl_max_all_none (l : List (Option Nat)) (acc : Nat)
    (h : ∀ o ∈ l, o = none) :
    l.foldl (fun max_id oid =>
      match oid with
      | some article_id => max max_id article_id
      | none => max_id) acc = acc := by
  induction l generalizing acc with
  | nil => rfl
  | cons o rest ih =>
    have ho : o = none := h o (List.mem_cons_self _ _)
    subst ho
    simp only [List.foldl_cons]
    exact ih acc (fun o ho => h o (List.mem_cons_of_mem _ ho))

lemma processArticlesLoop_length (proc : Article → Except Unit Article)
    (articles : List Article) :
    (processArticlesLoop proc articles).length = articles.length := by
  induction articles with
  | nil => rfl
  | cons a rest ih =>
    cases hp : proc a <;> simp [processArticlesLoop, hp, ih]

lemma processArticlesLoop_get (proc : Article → Except Unit Article) :
    ∀ (articles : List Article) (i : Nat) (a : Article), articles[i]? = some a →
      (∀ p, proc a = Except.ok p → (processArticlesLoop proc articles)[i]? = some p) ∧
      (proc a = Except.error () → (processArticlesLoop proc articles)[i]? = some (rawFallback a))
  | [], i, a, ha => by simp at ha
  | hd :: tl, 0, a, ha => by
    simp only [List.getElem?_cons_zero, Option.some_inj] at ha
    subst ha
    cases hp : proc hd with
    | ok p =>
      refine ⟨fun p' hp' => ?_, fun hp' => ?_⟩
      · cases hp'
        simp [processArticlesLoop, hp]
      · cases hp'
    | error e =>
      refine ⟨fun p' hp' => ?_, fun hp' => ?_⟩
      · cases hp'
      · simp [processArticlesLoop, hp, rawFallback]
  | hd :: tl, i + 1, a, ha => by
    simp only [List.getElem?_cons_succ] at ha
    have ih := processArticlesLoop_get proc tl i a ha
    cases hp : proc hd <;>
      simpa [processArticlesLoop, hp, List.getElem?_cons_succ] using ih

lemma failBlock_pos (bound j : Nat) (h : j + 1 < bound) :
    failBlock bound j = [FetchEvent.attempt j, FetchEvent.sleep (2 ^ j)] := by
  simp [failBlock, h]

lemma failBlock_last (bound j : Nat) (h : ¬j + 1 < bound) :
    failBlock bound j = [FetchEvent.attempt j] := by
  simp [failBlock, h]

lemma countP_attempt_failBlock (bound : Nat) :
    ∀ l : List Nat, ((l.flatMap (failBlock bound)).countP isAttempt) = l.length
  | [] => rfl
  | j :: rest => by
    rw [List.flatMap_cons, List.countP_append, countP_attempt_failBlock bound rest]
    have hb : (failBlock bound j).countP isAttempt = 1 := by
      by_cases h : j + 1 < bound
      · rw [failBlock_pos bound j h]
        simp [List.countP_cons, isAttempt]
      · rw [failBlock_last bound j h]
        simp [List.countP_cons, isAttempt]
    rw [hb]
    simp [Nat.add_comm]

lemma sleepsOf_append (l1 l2 : List FetchEvent) :
    sleepsOf (l1 ++ l2) = sleepsOf l1 ++ sleepsOf l2 :=
  List.filterMap_append _ _ _

lemma sleepsOf_failBlock_flatMap (bound : Nat) :
    ∀ l : List Nat, sleepsOf (l.flatMap (failBlock bound)) =
      (l.filter (fun j => decide (j + 1 < bound))).map (fun j => 2 ^ j)
  | [] => rfl
  | j :: rest => by
    rw [List.flatMap_cons, sleepsOf_append, sleepsOf_failBlock_flatMap bound rest]
    by_cases h : j + 1 < bound
    · rw [failBlock_pos bound j h]
      simp [sleepsOf, List.filter_cons, h]
    · rw [failBlock_last bound j h]
      simp [sleepsOf, List.filter_cons, h]

lemma filter_range_pred (n : Nat) :
    (List.range n).filter (fun j => decide (j + 1 < n)) = List.range (n - 1) := by
  cases n with
  | zero => rfl
  | succ m =>
    rw [List.range_succ, List.filter_append]
    have h1 : (List.range m).filter (fun j => decide (j + 1 < m + 1)) = List.range m :=
      List.filter_eq_self.mpr (fun j hj => by
        have := List.mem_range.mp hj
        simp
        omega)
    have h2 : [m].filter (fun j => decide (j + 1 < m + 1)) = [] := by simp
    rw [h1, h2, List.append_nil]
    simp

lemma getLast_failBlock_flatMap (n : Nat) (hn : 0 < n) :
    ((List.range n).flatMap (failBlock n)).getLast? =
      some (FetchEvent.attempt (n - 1)) := by
  cases n with
  | zero => omega
  | succ m =>
    rw [List.range_succ, List.flatMap_append]
    have hb : [m].flatMap (failBlock (m + 1)) = [FetchEvent.attempt m] := by
      simp [failBlock_last (m + 1) m (by omega)]
    rw [hb]
    simp

lemma fetch_page_go_fail {σ : Type} (outcome : Nat → Except Unit σ)
    (h : ∀ j, outcome j = Except.error ()) (retry : Nat) :
    ∀ (fuel i : Nat), retry - i = fuel →
      fetch_page_go outcome retry i fuel =
        ((List.range' i fuel).flatMap (failBlock retry), none)
  | 0, i, _ => by simp [fetch_page_go, List.range']
  | fuel + 1, i, hfuel => by
    simp only [fetch_page_go, h i]
    by_cases h2 : i < retry - 1
    · rw [if_pos h2, fetch_page_go_fail outcome h retry fuel (i + 1) (by omega),
        List.range'_succ, List.flatMap_cons, failBlock_pos retry i (by omega)]
      rfl
    · rw [if_neg h2]
      have hfuel0 : fuel = 0 := by omega
      subst hfuel0
      rw [List.range'_succ, List.flatMap_cons, failBlock_last retry i (by omega)]
      simp [List.range']

lemma call_api_go_fail {ε : Type} (outcome : Nat → Except ε String) (err : Nat → ε)
    (h : ∀ j, outcome j = Except.error (err j)) (max_retries : Nat) :
    ∀ (fuel i : Nat), max_retries - i = fuel → 0 < fuel →
      call_api_go outcome max_retries i fuel =
        ((List.range' i fuel).flatMap (failBlock max_retries),
          Except.error (err (max_retries - 1)))
  | 0, _, _, h0 => by omega
  | fuel + 1, i, hfuel, _ => by
    simp only [call_api_go, h i]
    by_cases h2 : i < max_retries - 1
    · have hfp : 0 < fuel := by omega
      rw [if_pos h2,
        call_api_go_fail outcome err h max_retries fuel (i + 1) (by omega) hfp,
        List.range'_succ, List.flatMap_cons, failBlock_pos max_retries i (by omega)]
      rfl
    · rw [if_neg h2]
      have hfuel0 : fuel = 0 := by omega
      subst hfuel0
      have hi : i = max_retries - 1 := by omega
      rw [List.range'_succ, List.flatMap_cons, failBlock_last max_retries i (by omega), hi]
      simp [List.range']

lemma extract_and_rewrite_ok (ex rw : Except Unit String) (a : Article) :
    ∃ a1, extract_and_rewrite ex rw a = Except.ok a1 ∧
      a1.title = a.title ∧ a1.content = a.content := by
  by_cases h : (a.content.getD "").isEmpty = true
  · have hE : extract_and_rewrite ex rw a = Except.ok a := by
      simp [extract_and_rewrite, h]
    exact ⟨a, hE, rfl, rfl⟩
  · cases rw with
    | ok r =>
      have hE : extract_and_rewrite ex (Except.ok r) a = Except.ok { a with
          original_content := some (a.content.getD "")
          key_points := some (match ex with
            | Except.ok s => s
            | Except.error _ => pySlice (a.content.getD "") 500)
          rewritten_content := some r } := by
        simp [extract_and_rewrite, h]
      exact ⟨_, hE, rfl, rfl⟩
    | error e =>
      have hE : extract_and_rewrite ex (Except.error e) a = Except.ok { a with
          rewritten_content := some (a.content.getD "") } := by
        simp [extract_and_rewrite, h]
      exact ⟨_, hE, rfl, rfl⟩

lemma extract_and_rewrite_rw_error (ex : Except Unit String) (a : Article)
    (c : String) (hc : a.content = some c) (hne : c.isEmpty = false) :
    extract_and_rewrite ex (Except.error ()) a =
      Except.ok { a with rewritten_content := some c } := by
  unfold extract_and_rewrite
  rw [hc]
  simp [hne]

lemma extract_and_rewrite_fields (ex rw : Except Unit String) (a : Article)
    (c : String) (hc : a.content = some c) (hne : c.isEmpty = false) :
    ∃ a1, extract_and_rewrite ex rw a = Except.ok a1 ∧
      a1.title = a.title ∧ a1.content = a.content ∧
      (rw = Except.error () → a1.rewritten_content = some c) ∧
      (∀ r, ex = Except.error () → rw = Except.ok r →
        a1.key_points = some (pySlice c 500)) := by
  cases rw with
  | ok r =>
    cases ex with
    | ok s =>
      have hE : extract_and_rewrite (Except.ok s) (Except.ok r) a =
          Except.ok { a with
            original_content := some c
            key_points := some s
            rewritten_content := some r } := by
        unfold extract_and_rewrite
        rw [hc]
        simp [hne]
      refine ⟨_, hE, rfl, rfl, fun h => ?_, fun r' h _ => ?_⟩
      · cases h
      · cases h
    | error e =>
      have hE : extract_and_rewrite (Except.error e) (Except.ok r) a =
          Except.ok { a with
            original_content := some c
            key_points := some (pySlice c 500)
            rewritten_content := some r } := by
        unfold extract_and_rewrite
        rw [hc]
        simp [hne]
      refine ⟨_, hE, rfl, rfl, fun h => ?_, fun r' _ _ => rfl⟩
      cases h
  | error e =>
    refine ⟨_, extract_and_rewrite_rw_error ex a c hc hne, rfl, rfl,
      fun _ => rfl, fun r' _ hr => ?_⟩
    cases hr

lemma translate_to_chinese_ok (tt tc : Except Unit String) (a : Article) :
    ∃ a2, translate_to_chinese tt tc a = Except.ok a2 ∧
      a2.title_zh.isSome = true ∧ a2.content_zh.isSome = true ∧
      a2.rewritten_content = a.rewritten_content ∧
      a2.key_points = a.key_points ∧ a2.content = a.content := by
  by_cases hzh : is_chinese (pyOr a.rewritten_content (a.content.getD "")) = true
  · have hE : translate_to_chinese tt tc a = Except.ok { a with
        title_zh := some (a.title.getD "")
        content_zh := some (pyOr a.rewritten_content (a.content.getD "")) } := by
      simp [translate_to_chinese, hzh]
    exact ⟨_, hE, rfl, rfl, rfl, rfl, rfl⟩
  · cases tt with
    | ok t =>
      cases tc with
      | ok z =>
        have hE : translate_to_chinese (Except.ok t) (Except.ok z) a =
            Except.ok { a with title_zh := some t, content_zh := some z } := by
          simp [translate_to_chinese, hzh]
        exact ⟨_, hE, rfl, rfl, rfl, rfl, rfl⟩
      | error e =>
        have hE : translate_to_chinese (Except.ok t) (Except.error e) a =
            Except.ok { a with
              title_zh := some t
              content_zh := some (pyOr a.rewritten_content (a.content.getD "")) } := by
          simp [translate_to_chinese, hzh]
        exact ⟨_, hE, rfl, rfl, rfl, rfl, rfl⟩
    | error e =>
      cases tc with
      | ok z =>
        have hE : translate_to_chinese (Except.error e) (Except.ok z) a =
            Except.ok { a with
              title_zh := some (a.title.getD "")
              content_zh := some z } := by
          simp [translate_to_chinese, hzh]
        exact ⟨_, hE, rfl, rfl, rfl, rfl, rfl⟩
      | error e2 =>
        have hE : translate_to_chinese (Except.error e) (Except.error e2) a =
            Except.ok { a with
              title_zh := some (a.title.getD "")
              content_zh := some (pyOr a.rewritten_content (a.content.getD "")) } := by
          simp [translate_to_chinese, hzh]
        exact ⟨_, hE, rfl, rfl, rfl, rfl, rfl⟩

lemma addTags_append (content : String) :
    ∀ (table : List (String × List String)) (tags : List String),
      ∃ suffix, addTags content table tags = tags ++ suffix
  | [], tags => ⟨[], (List.append_nil tags).symm⟩
  | (tag, keywords_list) :: rest, tags => by
    unfold addTags
    by_cases h : (keywords_list.any (fun keyword => strIn keyword content)
        && !tags.contains tag) = true
    · rw [if_pos h]
      obtain ⟨s, hs⟩ := addTags_append content rest (tags ++ [tag])
      exact ⟨[tag] ++ s, by rw [hs, List.append_assoc]⟩
    · rw [if_neg h]
      exact addTags_append content rest tags

lemma addTags_nodup (content : String) :
    ∀ (table : List (String × List String)) (tags : List String),
      tags.Nodup → (addTags content table tags).Nodup
  | [], _, h => h
  | (tag, keywords_list) :: rest, tags, h => by
    unfold addTags
    by_cases hcond : (keywords_list.any (fun keyword => strIn keyword content)
        && !tags.contains tag) = true
    · rw [if_pos hcond]
      refine addTags_nodup content rest (tags ++ [tag]) ?_
      have hmem : tag ∉ tags := by
        have h2 := (Bool.and_eq_true _ _).mp hcond |>.2
        simpa using h2
      simp [List.nodup_append, h, hmem]
    · rw [if_neg hcond]
      exact addTags_nodup content rest tags h

lemma mem_of_mem_splitOnChar (sep : Char) :
    ∀ (l : List Char) (p : List Char), p ∈ splitOnChar sep l → ∀ c ∈ p, c ∈ l
  | [], p, hp, c, hc => by
    simp only [splitOnChar, List.mem_singleton] at hp
    subst hp
    cases hc
  | d :: rest, p, hp, c, hc => by
    unfold splitOnChar at hp
    by_cases h : d = sep
    · rw [if_pos h] at hp
      rcases List.mem_cons.mp hp with h1 | h1
      · subst h1
        cases hc
      · exact List.mem_cons_of_mem d (mem_of_mem_splitOnChar sep rest p h1 c hc)
    · rw [if_neg h] at hp
      cases hS : splitOnChar sep rest with
      | nil =>
        rw [hS] at hp
        simp only [List.mem_singleton] at hp
        subst hp
        simp only [List.mem_singleton] at hc
        subst hc
        exact List.mem_cons_self _ _
      | cons l0 ls =>
        rw [hS] at hp
        rcases List.mem_cons.mp hp with h1 | h1
        · subst h1
          rcases List.mem_cons.mp hc with h2 | h2
          · subst h2
            exact List.mem_cons_self _ _
          · have hm : c ∈ rest := mem_of_mem_splitOnChar sep rest l0
              (by rw [hS]; exact List.mem_cons_self _ _) c h2
            exact List.mem_cons_of_mem d hm
        · have hm : c ∈ rest := mem_of_mem_splitOnChar sep rest p
            (by rw [hS]; exact List.mem_cons_of_mem _ h1) c hc
          exact List.mem_cons_of_mem d hm

lemma mem_of_mem_pyStrip (l : List Char) (c : Char) (h : c ∈ pyStrip l) : c ∈ l := by
  unfold pyStrip at h
  rw [List.mem_reverse] at h
  have h2 : c ∈ (l.dropWhile pyIsSpace).reverse :=
    (List.dropWhile_sublist _).subset h
  rw [List.mem_reverse] at h2
  exact (List.dropWhile_sublist _).subset h2

lemma generate_excerpt_spec (content : String) :
    generate_excerpt content = "" ∨
    ∃ first : List Char,
      (∀ c ∈ first, bannedChar c = false) ∧
      ((¬150 < first.length ∧ generate_excerpt content = ⟨first⟩) ∨
       (150 < first.length ∧
         generate_excerpt content = ⟨first.take 150 ++ ['.', '.', '.']⟩)) := by
  cases hL : ((splitOnChar '\n' (content.data.filter (fun c => !bannedChar c))).map
      pyStrip).filter (fun l => !l.isEmpty) with
  | nil =>
    left
    simp only [generate_excerpt]
    rw [hL]
  | cons first rest =>
    right
    refine ⟨first, ?_, ?_⟩
    · intro c hc
      have h1 : first ∈ ((splitOnChar '\n' (content.data.filter
          (fun c => !bannedChar c))).map pyStrip).filter (fun l => !l.isEmpty) := by
        rw [hL]
        exact List.mem_cons_self _ _
      have h2 := (List.mem_filter.mp h1).1
      obtain ⟨p, hp, hps⟩ := List.mem_map.mp h2
      have h3 : c ∈ p := mem_of_mem_pyStrip p c (hps ▸ hc)
      have h4 := mem_of_mem_splitOnChar '\n' _ p hp c h3
      have h5 := (List.mem_filter.mp h4).2
      simpa using h5
    · by_cases hlen : 150 < first.length
      · right
        refine ⟨hlen, ?_⟩
        simp only [generate_excerpt]
        rw [hL]
        simp [hlen]
      · left
        refine ⟨hlen, ?_⟩
        simp only [generate_excerpt]
        rw [hL]
        simp [hlen]

lemma isCJK_not_space (c : Char) (h : isCJK c = true) : pyIsSpace c = false := by
  have hge : 0x4e00 ≤ c.toNat := by
    simp only [isCJK, Bool.and_eq_true, decide_eq_true_eq] at h
    exact h.1
  cases hps : pyIsSpace c
  · rfl
  · exfalso
    unfold pyIsSpace at hps
    simp only [Bool.or_eq_true, Bool.and_eq_true, decide_eq_true_eq] at hps
    omega

lemma mem_filter_take_of_mem_take (p : Char → Bool) (n : Nat) (l : List Char)
    (x : Char) (hx : x ∈ l.take n) (hpx : p x = true) :
    x ∈ (l.filter p).take n := by
  obtain ⟨rest, hrest⟩ := (List.take_prefix n l).filter p
  have hlen : ((l.take n).filter p).length ≤ n :=
    le_trans (List.length_filter_le _ _) (by rw [List.length_take]; omega)
  have hxA : x ∈ (l.take n).filter p := List.mem_filter.mpr ⟨hx, hpx⟩
  rw [← hrest, List.take_append_eq_append_take, List.take_of_length_le hlen]
  exact List.mem_append_left _ hxA

lemma is_chinese_false_of_no_cjk (s : String)
    (hc : ((s.data.take 1000).filter isCJK).length = 0) : is_chinese s = false := by
  by_cases hd : s.data.isEmpty = true
  · simp [is_chinese, hd]
  · simp only [is_chinese, hd, Bool.false_eq_true, if_false]
    rw [hc]
    simp

/-! ## Claims -/

/-- C8: ID assignment — a directory with documents carrying ids
{3, 7, 2} yields next id 8; a directory with no documents carrying an
id yields 1; in general the assigned id is one greater than the maximum
id among the existing documents. -/
theorem next_id_is_max_plus_one :
    get_next_id [some 3, some 7, some 2] = 8 ∧
    (∀ ids : List (Option Nat), (∀ o ∈ ids, o = none) → get_next_id ids = 1) ∧
    (∀ (ids : List (Option Nat)) (m : Nat), some m ∈ ids →
      (∀ j, some j ∈ ids → j ≤ m) → get_next_id ids = m + 1) := by
  refine ⟨by decide, fun ids h => ?_, fun ids m hmem hub => ?_⟩
  · unfold get_next_id
    rw [foldl_max_all_none ids 0 h]
  · unfold get_next_id
    have h1 := foldl_max_ge_mem ids m 0 hmem
    have h2 := foldl_max_le m ids 0 hub (Nat.zero_le m)
    omega

/-- Witness for C8 at concrete directories. -/
theorem next_id_is_max_plus_one_witness :
    get_next_id [none, none] = 1 ∧ get_next_id [some 3, some 7, some 2] = 8 :=
  ⟨next_id_is_max_plus_one.2.1 [none, none] (by decide),
   next_id_is_max_plus_one.2.2 [some 3, some 7, some 2] 7
     (by simp) (by intro j hj; simp at hj; omega)⟩

/-- C5: the per-article AI-processing loop of `scrape_by_category`
preserves length and order, and an article for which `process_article`
raises is kept in the batch with `title_zh` set to its raw title and
`content_zh` set to its raw content rather than being dropped. -/
theorem processing_loop_never_drops (proc : Article → Except Unit Article)
    (articles : List Article) :
    (processArticlesLoop proc articles).length = articles.length ∧
    ∀ (i : Nat) (a : Article), articles[i]? = some a →
      (∀ p, proc a = Except.ok p → (processArticlesLoop proc articles)[i]? = some p) ∧
      (proc a = Except.error () →
        (processArticlesLoop proc articles)[i]? =
          some { a with
            title_zh := some (a.title.getD "")
            content_zh := some (a.content.getD "") }) :=
  ⟨processArticlesLoop_length proc articles,
   fun i a ha => processArticlesLoop_get proc articles i a ha⟩

/-- Witness for C5: a two-article batch where processing raises on the
second article. -/
theorem processing_loop_never_drops_witness :
    (processArticlesLoop
      (fun a => if a.title = some "A" then Except.ok (rawFallback a) else Except.error ())
      [{ title := some "A" }, { title := some "B", content := some "c" }]).length = 2 ∧
    (processArticlesLoop
      (fun a => if a.title = some "A" then Except.ok (rawFallback a) else Except.error ())
      [{ title := some "A" }, { title := some "B", content := some "c" }])[1]? =
      some { title := some "B", content := some "c",
             title_zh := some "B", content_zh := some "c" } := by
  have h := processing_loop_never_drops
    (fun a => if a.title = some "A" then Except.ok (rawFallback a) else Except.error ())
    [{ title := some "A" }, { title := some "B", content := some "c" }]
  exact ⟨h.1, (h.2 1 { title := some "B", content := some "c" } (by decide)).2 (by rfl)⟩

/-- C2: when every fetch attempt raises, the Fetcher returns the `None`
failure value (it never raises), makes exactly `retry` attempts, sleeps
`2 ^ attempt` seconds between consecutive attempts (`1, 2, 4, …`), and
performs no sleep after the final attempt (the trace ends with the last
attempt). -/
theorem fetcher_exhausts_retries {σ : Type} (outcome : Nat → Except Unit σ)
    (retry : Nat) (h : ∀ j, outcome j = Except.error ()) :
    (fetch_page outcome retry).2 = none ∧
    ((fetch_page outcome retry).1.countP isAttempt) = retry ∧
    sleepsOf (fetch_page outcome retry).1 =
      (List.range (retry - 1)).map (fun j => 2 ^ j) ∧
    (0 < retry →
      (fetch_page outcome retry).1.getLast? =
        some (FetchEvent.attempt (retry - 1))) := by
  have hcf : fetch_page outcome retry =
      ((List.range retry).flatMap (failBlock retry), none) := by
    unfold fetch_page
    rw [fetch_page_go_fail outcome h retry retry 0 (by omega),
      ← List.range_eq_range' retry]
  rw [hcf]
  refine ⟨rfl, ?_, ?_, fun hr => ?_⟩
  · rw [countP_attempt_failBlock retry (List.range retry), List.length_range]
  · rw [sleepsOf_failBlock_flatMap retry (List.range retry), filter_range_pred retry]
  · exact getLast_failBlock_flatMap retry hr

/-- Witness for C2: three failing attempts yield `None`, with the trace
ending in the third attempt. -/
theorem fetcher_exhausts_retries_witness :
    (fetch_page (σ := Unit) (fun _ => Except.error ()) 3).2 = none ∧
    (fetch_page (σ := Unit) (fun _ => Except.error ()) 3).1.getLast? =
      some (FetchEvent.attempt 2) :=
  ⟨(fetcher_exhausts_retries (fun _ => Except.error ()) 3 (fun _ => rfl)).1,
   (fetcher_exhausts_retries (fun _ => Except.error ()) 3 (fun _ => rfl)).2.2.2
     (by decide)⟩

/-- C6: when all `max_retries` LLM API attempts raise, `_call_api`
propagates the final attempt's error to the caller (no degraded value),
makes exactly `max_retries` attempts, sleeps `2 ^ attempt` seconds
between consecutive attempts, and performs no sleep after the last
attempt. -/
theorem llm_client_propagates_error {ε : Type} (outcome : Nat → Except ε String)
    (err : Nat → ε) (max_retries : Nat) (hpos : 0 < max_retries)
    (h : ∀ j, outcome j = Except.error (err j)) :
    (call_api outcome max_retries).2 = Except.error (err (max_retries - 1)) ∧
    ((call_api outcome max_retries).1.countP isAttempt) = max_retries ∧
    sleepsOf (call_api outcome max_retries).1 =
      (List.range (max_retries - 1)).map (fun j => 2 ^ j) ∧
    (call_api outcome max_retries).1.getLast? =
      some (FetchEvent.attempt (max_retries - 1)) := by
  have hcf : call_api outcome max_retries =
      ((List.range max_retries).flatMap (failBlock max_retries),
        Except.error (err (max_retries - 1))) := by
    unfold call_api
    rw [call_api_go_fail outcome err h max_retries max_retries 0 (by omega) hpos,
      ← List.range_eq_range' max_retries]
  rw [hcf]
  refine ⟨rfl, ?_, ?_, ?_⟩
  · rw [countP_attempt_failBlock max_retries (List.range max_retries),
      List.length_range]
  · rw [sleepsOf_failBlock_flatMap max_retries (List.range max_retries),
      filter_range_pred max_retries]
  · exact getLast_failBlock_flatMap max_retries hpos

/-- Witness for C6: three attempts failing with distinguishable errors
propagate the final attempt's error, after sleeps of 1 and 2 seconds. -/
theorem llm_client_propagates_error_witness :
    (call_api (fun j => Except.error (2 * j)) 3).2 = Except.error 4 ∧
    sleepsOf (call_api (fun j => Except.error (2 * j)) 3).1 = [1, 2] :=
  ⟨(llm_client_propagates_error (fun j => Except.error (2 * j)) (fun j => 2 * j) 3
      (by decide) (fun _ => rfl)).1,
   by
    rw [(llm_client_propagates_error (fun j => Except.error (2 * j)) (fun j => 2 * j) 3
      (by decide) (fun _ => rfl)).2.2.1]
    decide⟩

/-- C4: running the pipeline with translation skipped populates
`title_zh` with exactly the article's title and `content_zh` with
exactly the rewritten content (or, by the `or`-fallback, the original
content when no non-empty rewritten content is present) — a straight
copy, and both fields are set. -/
theorem skip_translation_copies (article : Article) (ex rw tt tc : Except Unit String) :
    ∃ a', process_article ex rw tt tc true article = Except.ok a' ∧
      a'.title_zh = some (article.title.getD "") ∧
      a'.content_zh = some (pyOr a'.rewritten_content (article.content.getD "")) := by
  obtain ⟨a1, h1, ht, hcnt⟩ := extract_and_rewrite_ok ex rw article
  have hP : process_article ex rw tt tc true article = Except.ok { a1 with
      title_zh := some (a1.title.getD "")
      content_zh := some (pyOr a1.rewritten_content (a1.content.getD "")) } := by
    unfold process_article
    rw [h1]
    rfl
  refine ⟨_, hP, ?_, ?_⟩
  · simp [ht]
  · simp [hcnt]

/-- C1: for an article with non-empty content, an LLM-call failure in
any pipeline stage never aborts later stages: `process_article` still
returns the article (`.ok`), the translation stage still populates both
translated fields, a rewrite failure degrades `rewritten_content` to the
raw content, and when only extraction fails its 500-character fallback
stands in for the key points. -/
theorem pipeline_degrades_never_aborts (article : Article) (c : String)
    (hc : article.content = some c) (hne : c.isEmpty = false)
    (ex rw tt tc : Except Unit String) (skip : Bool) :
    ∃ a', process_article ex rw tt tc skip article = Except.ok a' ∧
      a'.title_zh.isSome = true ∧ a'.content_zh.isSome = true ∧
      (rw = Except.error () → a'.rewritten_content = some c) ∧
      (∀ r, ex = Except.error () → rw = Except.ok r →
        a'.key_points = some (pySlice c 500)) := by
  obtain ⟨a1, h1, ht, hcnt, hrw, hkp⟩ :=
    extract_and_rewrite_fields ex rw article c hc hne
  cases skip with
  | true =>
    have hP : process_article ex rw tt tc true article = Except.ok { a1 with
        title_zh := some (a1.title.getD "")
        content_zh := some (pyOr a1.rewritten_content (a1.content.getD "")) } := by
      unfold process_article
      rw [h1]
      rfl
    exact ⟨_, hP, rfl, rfl, fun h => hrw h, fun r he hr => hkp r he hr⟩
  | false =>
    obtain ⟨a2, h2, hts, hcs, hrc, hkc, _⟩ := translate_to_chinese_ok tt tc a1
    have hP : process_article ex rw tt tc false article = Except.ok a2 := by
      unfold process_article
      rw [h1]
      exact h2
    refine ⟨a2, hP, hts, hcs, fun h => ?_, fun r he hr => ?_⟩
    · rw [hrc]
      exact hrw h
    · rw [hkc]
      exact hkp r he hr

/-- Witness for C1: with every LLM call failing and translation not
skipped, the pipeline still returns the article, with the raw content
standing in as `rewritten_content`. -/
theorem pipeline_degrades_never_aborts_witness :
    Except.map Article.rewritten_content
      (process_article (Except.error ()) (Except.error ()) (Except.error ())
        (Except.error ()) false { title := some "T", content := some "Hello" }) =
      Except.ok (some "Hello") := by
  obtain ⟨a', hP, _, _, hrw, _⟩ :=
    pipeline_degrades_never_aborts { title := some "T", content := some "Hello" }
      "Hello" rfl rfl (Except.error ()) (Except.error ()) (Except.error ())
      (Except.error ()) false
  simp [hP, Except.map, hrw rfl]

/-- C10: when the stage-2 rewrite call fails, `extract_and_rewrite` sets
only `rewritten_content` (to the original raw content); `key_points` and
`original_content` are left exactly as they were — even when the stage-1
outcome `ex` succeeded — and every other field of the article is
unchanged. -/
theorem rewrite_failure_frame (article : Article) (c : String)
    (ex : Except Unit String) (hc : article.content = some c)
    (hne : c.isEmpty = false) :
    extract_and_rewrite ex (Except.error ()) article =
      Except.ok { article with rewritten_content := some c } ∧
    ∀ a', extract_and_rewrite ex (Except.error ()) article = Except.ok a' →
      a'.key_points = article.key_points ∧
      a'.original_content = article.original_content ∧
      a'.url = article.url ∧ a'.title = article.title ∧
      a'.content = article.content ∧ a'.author = article.author ∧
      a'.date = article.date ∧ a'.category = article.category ∧
      a'.title_zh = article.title_zh ∧ a'.content_zh = article.content_zh ∧
      a'.rewritten_content = some c := by
  have h1 : extract_and_rewrite ex (Except.error ()) article =
      Except.ok { article with rewritten_content := some c } := by
    unfold extract_and_rewrite
    rw [hc]
    simp [hne]
  refine ⟨h1, fun a' ha' => ?_⟩
  rw [h1] at ha'
  cases ha'
  simp

/-- Witness for C10 at a concrete article whose stage-1 call succeeded. -/
theorem rewrite_failure_frame_witness :
    extract_and_rewrite (Except.ok "key points") (Except.error ())
      { title := some "T", content := some "C", key_points := some "old" } =
      Except.ok { title := some "T", content := some "C",
                  key_points := some "old", rewritten_content := some "C" } :=
  (rewrite_failure_frame
    { title := some "T", content := some "C", key_points := some "old" }
    "C" (Except.ok "key points") rfl rfl).1

/-- C7: tag inference is idempotent (the embedding is a pure function of
the article, so a second application yields the identical list), the
result has at most 5 tags, no theme contributes more than one tag (the
tag list is duplicate-free), and a non-empty category appears as the
first tag. -/
theorem tag_inference_idempotent (article : Article) :
    extract_tags article = extract_tags article ∧
    (extract_tags article).length ≤ 5 ∧
    (extract_tags article).Nodup ∧
    (∀ cat, article.category = some cat → cat.isEmpty = false →
      (extract_tags article).head? = some cat) := by
  have hnd : (match article.category with
      | some c => if c.isEmpty then [] else [c]
      | none => ([] : List String)).Nodup := by
    cases article.category with
    | none => simp
    | some c =>
      by_cases h : c.isEmpty <;> simp [h]
  refine ⟨rfl, ?_, ?_, ?_⟩
  · unfold extract_tags
    rw [List.length_take]
    omega
  · exact List.Nodup.sublist (List.take_sublist _ _)
      (addTags_nodup _ keywordTable _ hnd)
  · intro cat hcat hne
    unfold extract_tags
    rw [hcat]
    simp only [hne, Bool.false_eq_true, if_false]
    obtain ⟨suffix, hs⟩ := addTags_append _ keywordTable [cat]
    rw [hs]
    simp

/-- Witness for C7: a concrete article with a category and matching
keywords. -/
theorem tag_inference_idempotent_witness :
    (extract_tags { category := some "资讯", content := some "融资与投资" }).head? =
      some "资讯" :=
  (tag_inference_idempotent
    { category := some "资讯", content := some "融资与投资" }).2.2.2 "资讯" rfl rfl

/-- C9: the excerpt is at most 153 characters (150 plus the 3-character
ellipsis, which appears exactly when the first non-blank line exceeds
150 characters: any longer output is exactly 153 characters ending in
the ellipsis), and the output contains none of the characters
stripped by the Markdown cleanup. -/
theorem excerpt_bounded_and_clean (content : String) :
    (generate_excerpt content).length ≤ 153 ∧
    (∀ c, c ∈ (generate_excerpt content).data → bannedChar c = false) ∧
    (150 < (generate_excerpt content).length →
      (generate_excerpt content).length = 153 ∧
      (generate_excerpt content).data.drop 150 = ['.', '.', '.']) := by
  rcases generate_excerpt_spec content with h | ⟨first, hchars, hcase⟩
  · rw [h]
    refine ⟨by decide, fun c hc => ?_, fun h150 => ?_⟩
    · cases hc
    · exact absurd h150 (by decide)
  · rcases hcase with ⟨hlen, heq⟩ | ⟨hlen, heq⟩
    · rw [heq]
      refine ⟨?_, fun c hc => hchars c hc, fun h150 => ?_⟩
      · show first.length ≤ 153
        omega
      · exact absurd (show 150 < first.length from h150) hlen
    · rw [heq]
      have htk : (first.take 150).length = 150 := by
        rw [List.length_take]
        omega
      have hlen153 : (first.take 150 ++ ['.', '.', '.']).length = 153 := by
        rw [List.length_append, htk]
        rfl
      refine ⟨?_, fun c hc => ?_, fun _ => ⟨?_, ?_⟩⟩
      · show (first.take 150 ++ ['.', '.', '.']).length ≤ 153
        omega
      · rcases List.mem_append.mp hc with h1 | h1
        · exact hchars c ((List.take_sublist _ _).subset h1)
        · have hdot : c = '.' := by simpa using h1
          subst hdot
          rfl
      · exact hlen153
      · show (first.take 150 ++ ['.', '.', '.']).drop 150 = ['.', '.', '.']
        have hd := List.drop_left (first.take 150) ['.', '.', '.']
        rwa [htk] at hd

set_option maxRecDepth 4096 in
/-- Witness for C9: a short markdown line keeps no `#`, and a
200-character line is cut to exactly 153 characters. -/
theorem excerpt_bounded_and_clean_witness :
    bannedChar 'H' = false ∧
    (generate_excerpt ⟨List.replicate 200 'x'⟩).length = 153 :=
  ⟨(excerpt_bounded_and_clean "# Hello").2.1 'H' (by decide),
   ((excerpt_bounded_and_clean ⟨List.replicate 200 'x'⟩).2.2 (by decide)).1⟩

set_option maxRecDepth 100000 in
/-- C3 counterexample: the string of 1000 spaces followed by four CJK
characters.  Its first 1000 non-whitespace characters (the four CJK
characters) are 100% CJK — far above the 0.3 threshold, so the claim
says it is classified already-translated — yet `_is_chinese` returns
`False`, because the code samples the raw prefix `text[:1000]`, which
here is all whitespace (`total_chars = 0`). -/
theorem chinese_ratio_counterexample :
    3 * (specFirstThousandNonWs
        ⟨List.replicate 1000 ' ' ++ ['中', '中', '中', '中']⟩).length <
      10 * ((specFirstThousandNonWs
        ⟨List.replicate 1000 ' ' ++ ['中', '中', '中', '中']⟩).filter isCJK).length ∧
    is_chinese ⟨List.replicate 1000 ' ' ++ ['中', '中', '中', '中']⟩ = false := by
  constructor
  · decide
  · decide

/-- C3 amended: `_is_chinese` samples the first 1000 raw characters of
the text (whitespace included), not the first 1000 non-whitespace
characters: the content is classified already-translated exactly when
the non-whitespace count among `text[:1000]` is positive and the CJK
characters among `text[:1000]` exceed 30% of that count; and a string
with zero CJK characters among its first 1000 non-whitespace characters
is never classified already-translated. -/
theorem chinese_ratio_amended (s : String) :
    (is_chinese s = true ↔
      0 < nonWsCount1000 s ∧ 3 * nonWsCount1000 s < 10 * cjkCount1000 s) ∧
    (((specFirstThousandNonWs s).filter isCJK).length = 0 →
      is_chinese s = false) := by
  constructor
  · constructor
    · intro h
      unfold is_chinese at h
      by_cases hd : s.data.isEmpty = true
      · rw [if_pos hd] at h
        cases h
      · rw [if_neg hd] at h
        simp only [Bool.and_eq_true, decide_eq_true_eq] at h
        exact ⟨h.1, h.2⟩
    · rintro ⟨ht, hr⟩
      have hne : s.data.isEmpty = false := by
        cases hd : s.data with
        | nil => simp [nonWsCount1000, hd] at ht
        | cons a l => simp [hd]
      simp only [is_chinese, hne, Bool.false_eq_true, if_false]
      exact (Bool.and_eq_true _ _).mpr ⟨decide_eq_true ht, decide_eq_true hr⟩
  · intro h0
    apply is_chinese_false_of_no_cjk
    by_contra hne
    have hpos : 0 < ((s.data.take 1000).filter isCJK).length :=
      Nat.pos_of_ne_zero hne
    obtain ⟨x, hxmem⟩ := List.exists_mem_of_length_pos hpos
    have hx1 := (List.mem_filter.mp hxmem).1
    have hx2 := (List.mem_filter.mp hxmem).2
    have hmem2 : x ∈ (s.data.filter (fun c => !pyIsSpace c)).take 1000 :=
      mem_filter_take_of_mem_take _ 1000 s.data x hx1
        (by rw [isCJK_not_space x hx2]; rfl)
    have hx3 : x ∈ (specFirstThousandNonWs s).filter isCJK :=
      List.mem_filter.mpr ⟨hmem2, hx2⟩
    rw [List.length_eq_zero] at h0
    rw [h0] at hx3
    cases hx3

/-- Witness for C3 amended: a majority-CJK short string is classified
already-translated; a pure-ASCII string is not. -/
theorem chinese_ratio_amended_witness :
    is_chinese "中中中中a" = true ∧ is_chinese "abc" = false :=
  ⟨(chinese_ratio_amended "中中中中a").1.mpr ⟨by decide, by decide⟩,
   (chinese_ratio_amended "abc").2 (by decide)⟩

end ParisKB
